import Mathlib

/-!
# Verification of the ExpenseTracker analytics caching / coalescing / retry core

Shallow embedding of the analytics subsystem of the ExpenseTracker repository:

* `src/src/app/api/financials/route.ts` — retry controller
  (`retryWithExponentialBackoff`), analytics computation
  (`generateAnalyticsData`) with AI fallback, in-memory result cache,
  in-flight request map, and the `GET`/`POST` handlers;
* `src/src/app/api/goal/route.ts` — savings-plan generation with
  response-shape validation;
* `src/unnamed/part_007` — an earlier analytics route variant whose
  in-flight tracker is a single module-level promise.

Conventions of the embedding:

* JavaScript numbers are modelled as `ℚ` (the code never produces NaN or
  infinities on the modelled paths); timestamps (`Date.now()`) as `Nat`
  milliseconds.
* `Map<string, V>` is an association list `List (String × V)` with
  replace-on-set semantics (`setKV`), matching `Map.set`/`Map.get`/
  `Map.delete`.
* Promises are modelled by explicit outcomes (`Except`) supplied as
  parameters, and the cooperative-scheduling semantics of the handlers is
  modelled as a step machine: code between two `await` points runs
  atomically, and settlement of a promise resumes its waiters in
  attachment order (JavaScript microtask FIFO).
* Database reads (prisma) and the Gemini call are external collaborators;
  their results are inputs to the embedded functions.
-/

/-- `Map.get`: first binding for `key`, if any. -/
def lookupKV {α : Type} : List (String × α) → String → Option α
  | [], _ => none
  | (k, v) :: rest, key => if k = key then some v else lookupKV rest key

/-- `Map.set`: replace the binding for `key`, or append it. -/
def setKV {α : Type} : List (String × α) → String → α → List (String × α)
  | [], key, v => [(key, v)]
  | (k, w) :: rest, key, v =>
    if k = key then (k, v) :: rest else (k, w) :: setKV rest key v

/-- `Map.delete`: remove every binding for `key`. -/
def delKV {α : Type} : List (String × α) → String → List (String × α)
  | [], _ => []
  | (k, w) :: rest, key =>
    if k = key then delKV rest key else (k, w) :: delKV rest key

theorem lookupKV_setKV {α : Type} (m : List (String × α)) (key : String) (v : α) :
    lookupKV (setKV m key v) key = some v := by
  induction m with
  | nil => simp [setKV, lookupKV]
  | cons hd tl ih =>
    obtain ⟨k, w⟩ := hd
    by_cases h : k = key <;> simp [setKV, lookupKV, h, ih]

/-! ## JSON values

The parsed form of a Gemini response (`JSON.parse` output). The parser
itself is a JavaScript builtin (collaborator); the embedding takes the
parse outcome (`Option JsonVal`, `none` = parse error) as an input. -/

inductive JsonVal where
  | jnull
  | jbool (b : Bool)
  | jnum (q : ℚ)
  | jstr (s : String)
  | jarr (elems : List JsonVal)
  | jobj (fields : List (String × JsonVal))

/-- Property access `v.field` on a parsed JSON value. -/
def jsonField : JsonVal → String → Option JsonVal
  | .jobj fields, key => lookupKV fields key
  | _, _ => none

/-- JavaScript truthiness of an optional property (`!x` is its negation). -/
def jsTruthy : Option JsonVal → Bool
  | none => false
  | some .jnull => false
  | some (.jbool b) => b
  | some (.jnum q) => decide (q ≠ 0)
  | some (.jstr s) => decide (s ≠ "")
  | some (.jarr _) => true
  | some (.jobj _) => true

/-- `Array.isArray(x)` on an optional property. -/
def jsIsArray : Option JsonVal → Bool
  | some (.jarr _) => true
  | _ => false

def jsIsStr : Option JsonVal → Bool
  | some (.jstr _) => true
  | _ => false

def jsIsNum : Option JsonVal → Bool
  | some (.jnum _) => true
  | _ => false

/-- The required-shape contract for an analytics insight payload, as stated
by the prompt in `financials/route.ts` lines 146-156 (fields `analysis`,
`recommendations`, `concerns`, `suggestedBudget.needs/wants/savings`).
The financials code itself never checks this; the definition expresses the
contract the spec claims is enforced. -/
def hasRequiredAnalyticsShape (v : JsonVal) : Bool :=
  jsIsStr (jsonField v "analysis") &&
  jsIsArray (jsonField v "recommendations") &&
  jsIsArray (jsonField v "concerns") &&
  (match jsonField v "suggestedBudget" with
   | some b =>
     jsIsNum (jsonField b "needs") && jsIsNum (jsonField b "wants") &&
     jsIsNum (jsonField b "savings")
   | none => false)

/-! ## Errors and the retry controller (`financials/route.ts` lines 37-88) -/

/-- A JavaScript error as observed by `retryWithExponentialBackoff`:
`statusCode` models `error.statusCode || (error.response && error.response.status)`
(already merged; `none` covers absent/zero status, e.g. network or parse
failures). -/
structure JsErr where
  statusCode : Option Nat
  msg : String
deriving DecidableEq, Repr

/-- Lines 56-61: client errors (4xx) are not retried, except 429 and 408. -/
def isNonRetryable (e : JsErr) : Bool :=
  match e.statusCode with
  | some s => decide (400 ≤ s) && decide (s < 500) && decide (s ≠ 429) && decide (s ≠ 408)
  | none => false

/-- Lines 66-74: backoff delay before the next attempt, after 0-based
failed attempt `attempt`; `rand` models the `Math.random()` draw. -/
def computeDelay (baseDelay factor : ℚ) (attempt : Nat) (jitter : Bool) (rand : ℚ) : ℚ :=
  let delay := baseDelay * factor ^ attempt
  if jitter then delay + (rand * (delay * (3 / 10)) - (delay * (3 / 10)) / 2)
  else delay

/-- Observable trace of one `retryWithExponentialBackoff` run: final
outcome (`.error none` models `throw undefined` when the loop never ran),
number of invocations of `operation`, and the backoff delays slept. -/
structure RetryTrace (α : Type) where
  result : Except (Option JsErr) α
  invocations : Nat
  delays : List ℚ
deriving Repr

/-- The loop of lines 46-87, structurally recursive on the number of
remaining iterations (`remaining = maxRetries - attempt`); `lastError`
threads the variable of line 44. `op i` is the outcome of the `i`-th
invocation of `operation`, `rands i` the `Math.random()` draw used for the
delay after attempt `i`. -/
def retryGo {α : Type} (op : Nat → Except JsErr α) (rands : Nat → ℚ)
    (baseDelay factor : ℚ) (jitter : Bool) :
    Nat → Nat → Option JsErr → RetryTrace α
  | _, 0, lastError => ⟨.error lastError, 0, []⟩
  | attempt, remaining + 1, _ =>
    match op attempt with
    | .ok v => ⟨.ok v, 1, []⟩
    | .error e =>
      if isNonRetryable e then ⟨.error (some e), 1, []⟩
      else
        let t := retryGo op rands baseDelay factor jitter (attempt + 1) remaining (some e)
        if 0 < remaining then
          ⟨t.result, t.invocations + 1,
           computeDelay baseDelay factor attempt jitter (rands attempt) :: t.delays⟩
        else
          ⟨t.result, t.invocations + 1, t.delays⟩

/-- `retryWithExponentialBackoff(operation, maxRetries, baseDelay, factor, jitter)`
(lines 37-88). -/
def retryWithExponentialBackoff {α : Type} (op : Nat → Except JsErr α) (rands : Nat → ℚ)
    (maxRetries : Nat) (baseDelay factor : ℚ) (jitter : Bool) : RetryTrace α :=
  retryGo op rands baseDelay factor jitter 0 maxRetries none

/-! ## Analytics data (`financials/route.ts` lines 93-232) -/

/-- One expense row as consumed by `generateAnalyticsData` (amount plus
`category.name`); rows come from the collaborator persistence layer. -/
structure Expense where
  amount : ℚ
  categoryName : String
deriving DecidableEq, Repr

/-- Line 120: `expenses.reduce((sum, expense) => sum + expense.amount, 0)`. -/
def totalOf (expenses : List Expense) : ℚ :=
  expenses.foldl (fun sum e => sum + e.amount) 0

/-- One step of the reduce at lines 123-128: add `amt` to the bucket of
`name`, creating the bucket at the end on first occurrence (JavaScript
object keys keep insertion order). -/
def addToCategory (acc : List (String × ℚ)) (name : String) (amt : ℚ) :
    List (String × ℚ) :=
  match lookupKV acc name with
  | some _ => acc.map (fun p => if p.1 = name then (p.1, p.2 + amt) else p)
  | none => acc ++ [(name, amt)]

/-- Lines 123-128: expenses grouped by category name. -/
def expensesByCategory (expenses : List Expense) : List (String × ℚ) :=
  expenses.foldl (fun acc e => addToCategory acc e.categoryName e.amount) []

/-- Lines 202-215: the heuristic insights used when the AI call fails after
all retries (50/30/20 budget of income, generic recommendations). -/
def fallbackInsights (monthlyIncome totalExpenses : ℚ) : JsonVal :=
  .jobj
    [("analysis", .jstr "Basic analysis based on your spending data. For more detailed insights, please try again later."),
     ("recommendations", .jarr
        [.jstr "Review your highest spending categories",
         .jstr "Consider setting a monthly budget",
         .jstr "Build an emergency fund if you haven't already"]),
     ("concerns", .jarr
        (if totalExpenses > monthlyIncome then [.jstr "Your expenses exceed your income"] else [])),
     ("suggestedBudget", .jobj
        [("needs", .jnum (max 0 (monthlyIncome * (1 / 2)))),
         ("wants", .jnum (max 0 (monthlyIncome * (3 / 10)))),
         ("savings", .jnum (max 0 (monthlyIncome * (1 / 5))))])]

/-- The payload built at lines 218-227. -/
structure AnalyticsData where
  currentIncome : ℚ
  totalExpenses : ℚ
  byCategory : List (String × ℚ)
  aiInsights : JsonVal
  hasIncome : Bool

/-- A result-cache entry (line 23): payload plus `Date.now()` at store time. -/
structure CacheEntry where
  data : AnalyticsData
  timestamp : Nat

/-- Line 24. -/
def CACHE_EXPIRATION_MS : Nat := 60 * 60 * 1000

/-- The freshness test of line 259: `Date.now() - timestamp < CACHE_EXPIRATION_MS`. -/
def finFresh (e : CacheEntry) (now : Nat) : Bool :=
  decide (now - e.timestamp < CACHE_EXPIRATION_MS)

/-- `generateAnalyticsData` (lines 93-232). The prisma reads are
collaborator inputs: `income` is the latest income amount (or `none`),
`expenses` the last-30-days rows. `aiOutcome` is the settled outcome of
`retryWithExponentialBackoff(generateAIContent, 5, 1000, 2, true)` at line
198. Returns the response payload and the updated cache (line 230 stores
it under `key` with timestamp `now`). -/
def generateAnalyticsData (income : Option ℚ) (expenses : List Expense)
    (aiOutcome : Except (Option JsErr) JsonVal) (now : Nat)
    (cache : List (String × CacheEntry)) (key : String) :
    AnalyticsData × List (String × CacheEntry) :=
  let monthlyIncome := income.getD 0
  let totalExpenses := totalOf expenses
  let aiInsights :=
    match aiOutcome with
    | .ok v => v
    | .error _ => fallbackInsights monthlyIncome totalExpenses
  let data : AnalyticsData :=
    ⟨monthlyIncome, totalExpenses, expensesByCategory expenses, aiInsights,
     income.isSome⟩
  (data, setKV cache key ⟨data, now⟩)

/-- One attempt of `generateAIContent` (lines 162-195): empty response text
throws, unparseable text throws (both without a status code, hence
retryable); any parseable value is returned as-is — no shape validation.
`respText` stands for the already-trimmed response text (the code compares
`responseText.trim()` with the empty string); `parsed` is the `JSON.parse`
outcome on the fence-stripped text. -/
def financialsProcessResponse (respText : String) (parsed : Option JsonVal) :
    Except JsErr JsonVal :=
  if respText = "" then .error ⟨none, "Empty response from Gemini API"⟩
  else
    match parsed with
    | none => .error ⟨none, "Invalid JSON response"⟩
    | some v => .ok v

/-! ## The GET read path for a single request (lines 237-314)

`getFinancialsSolo` is the handler body for one request with no concurrent
in-flight entry: cache check (lines 257-261), then the computation outcome
(`comp`, the settled `Promise.race` of lines 276-283 — `.error` covers both
internal failure and the 60 s overall timeout), then the fallback logic of
lines 290-305. -/

inductive GetOutcome where
  | cacheHit (d : AnalyticsData)      -- line 260: fresh cache, computation never starts
  | freshResult (d : AnalyticsData)   -- line 289: newly computed payload
  | degraded (d : AnalyticsData)      -- lines 296-299: cached payload spread with a `_warning` field
  | error500                          -- lines 302-305

def getFinancialsSolo (cache : List (String × CacheEntry)) (key : String)
    (now : Nat) (comp : Except (Option JsErr) AnalyticsData) : GetOutcome :=
  match lookupKV cache key with
  | some e =>
    if finFresh e now then .cacheHit e.data
    else
      match comp with
      | .ok d => .freshResult d
      | .error _ => .degraded e.data
  | none =>
    match comp with
    | .ok d => .freshResult d
    | .error _ => .error500

/-! ## POST income validation (lines 319-351) -/

inductive IncomePostResult where
  | badRequest            -- lines 329-332, status 400
  | created (amount : ℚ)  -- lines 344-351: income record created with this amount
deriving DecidableEq, Repr

/-- The validation and create of the financials `POST`, for request bodies
whose `monthlyIncome` is a JSON number or absent. Line 328 rejects iff
`!monthlyIncome || isNaN(parseFloat(monthlyIncome))`: for a finite number
`x`, `!x` holds iff `x = 0`, and `parseFloat(x)` is never NaN — so only
absence and zero are rejected. -/
def financialsIncomePost (monthlyIncome : Option ℚ) : IncomePostResult :=
  match monthlyIncome with
  | none => .badRequest
  | some x => if x = 0 then .badRequest else .created x

/-! ## Goal-route response validation (`goal/route.ts` lines 90-151) -/

/-- Lines 106-121: parse, then validate the structure (`savingsPlan`
truthy, `recommendations` and `tips` arrays); a structure failure throws
`Invalid response structure`, handled by the same attempt counter as an
API call failure. -/
def goalValidateShape (v : JsonVal) : Bool :=
  jsTruthy (jsonField v "savingsPlan") &&
  jsIsArray (jsonField v "recommendations") &&
  jsIsArray (jsonField v "tips")

def goalProcessResponse (parsed : Option JsonVal) : Except JsErr JsonVal :=
  match parsed with
  | none => .error ⟨none, "Failed to parse AI response"⟩
  | some v =>
    if goalValidateShape v then .ok v
    else .error ⟨none, "Invalid response structure"⟩

/-! ## Concurrent GET requests: coalescer step machine (lines 237-314)

Cooperative single-threaded scheduling: lines 257-285 of `GET` contain no
`await`, so for each request they execute as one atomic step (`entryOne`,
via `entryMiss` on a cache miss). A request then waits either on the
shared in-flight promise (line 266, `awaitingShared`) or on its own newly
raced computation (line 288, `awaitingOwn`). Settlement of a computation
resumes its waiters in attachment order — the `.finally` cleanup of lines
281-283 first, then the requests in the order they attached, which is the
order their entry steps ran.

The code keys the cache by one string and the in-flight map by another
(both derived 1-1 from the user id); the model uses the single string
`key` for both maps, which are still separate structures. A computation
is an invocation of `generateAnalyticsData` raced against the 60 s
timeout; `comps` records every computation ever started, so
`comps.length` counts invocations. -/

inductive CompStatus where
  | running
  | succeeded
  | failed
deriving DecidableEq, Repr

structure CompRec where
  key : String
  status : CompStatus
deriving DecidableEq, Repr

structure FinSys where
  cache : List (String × CacheEntry)    -- line 23
  inflight : List (String × Nat)        -- line 27, `requestsInProgress`
  comps : List CompRec

inductive FinPhase where
  | entry                               -- about to run lines 257-285
  | awaitingShared (c : Nat)            -- suspended at line 266
  | awaitingOwn (c : Nat)               -- suspended at line 288
  | respondedCache (d : AnalyticsData)  -- line 260
  | respondedOk (d : AnalyticsData)     -- line 267 or 289
  | respondedDegraded (d : AnalyticsData) -- lines 296-299
  | responded500                        -- lines 302-305

structure FinReq where
  key : String
  snapshot : Option CacheEntry          -- `cachedData`, captured at line 258
  phase : FinPhase

structure FinWorld where
  sys : FinSys
  reqs : List FinReq

/-- Cache-miss continuation (lines 263-285): attach to an existing
in-flight entry, or start a computation and register it synchronously. -/
def entryMiss (sys : FinSys) (r : FinReq) : FinSys × FinReq :=
  match lookupKV sys.inflight r.key with
  | some c => (sys, { r with phase := .awaitingShared c })
  | none =>
    let c := sys.comps.length
    ({ sys with
        inflight := setKV sys.inflight r.key c,
        comps := sys.comps ++ [⟨r.key, .running⟩] },
     { r with phase := .awaitingOwn c })

/-- The atomic entry block of one request (lines 257-285). -/
def entryOne (now : Nat) (sys : FinSys) (r : FinReq) : FinSys × FinReq :=
  match r.phase with
  | .entry =>
    match lookupKV sys.cache r.key with
    | some e =>
      if finFresh e now then
        (sys, { r with snapshot := some e, phase := .respondedCache e.data })
      else entryMiss sys { r with snapshot := some e }
    | none => entryMiss sys { r with snapshot := none }
  | _ => (sys, r)

/-- Run the entry block of each listed request, in list order. -/
def entryAll (now : Nat) (sys : FinSys) : List FinReq → FinSys × List FinReq
  | [] => (sys, [])
  | r :: rs =>
    let p := entryOne now sys r
    let q := entryAll now p.1 rs
    (q.1, p.2 :: q.2)

/-- Resumption of one waiter when computation `c` fulfills with `v`
(line 267 for attached callers, line 289 for the initiator). -/
def resumeOk (v : AnalyticsData) (c : Nat) (r : FinReq) : FinReq :=
  match r.phase with
  | .awaitingShared c' => if c' = c then { r with phase := .respondedOk v } else r
  | .awaitingOwn c' => if c' = c then { r with phase := .respondedOk v } else r
  | _ => r

/-- Computation `c` fulfills with payload `v`: the cache write of line 230
already happened inside it, the `.finally` of lines 281-283 removes the
in-flight entry, and every waiter receives `v`. -/
def settleSuccess (now : Nat) (v : AnalyticsData) (c : Nat) (w : FinWorld) : FinWorld :=
  match w.sys.comps.get? c with
  | some cr =>
    if cr.status = .running then
      { sys :=
          { cache := setKV w.sys.cache cr.key ⟨v, now⟩,
            inflight := delKV w.sys.inflight cr.key,
            comps := w.sys.comps.set c ⟨cr.key, .succeeded⟩ },
        reqs := w.reqs.map (resumeOk v c) }
    else w
  | none => w

/-- The failure continuation of a request (line 290 vs lines 268-272): the
initiator falls back on its `cachedData` snapshot; an attached caller
deletes the in-flight entry and starts a fresh computation of its own
(lines 271, 276-285), ending suspended at line 288. -/
def fallbackPhase (snapshot : Option CacheEntry) : FinPhase :=
  match snapshot with
  | some e => .respondedDegraded e.data
  | none => .responded500

def resumeFailOne (sys : FinSys) (c : Nat) (r : FinReq) : FinSys × FinReq :=
  match r.phase with
  | .awaitingOwn c' =>
    if c' = c then (sys, { r with phase := fallbackPhase r.snapshot })
    else (sys, r)
  | .awaitingShared c' =>
    if c' = c then
      let sys1 := { sys with inflight := delKV sys.inflight r.key }
      let cid := sys1.comps.length
      ({ sys1 with
          inflight := setKV sys1.inflight r.key cid,
          comps := sys1.comps ++ [⟨r.key, .running⟩] },
       { r with phase := .awaitingOwn cid })
    else (sys, r)
  | _ => (sys, r)

def resumeFailAll (sys : FinSys) (c : Nat) : List FinReq → FinSys × List FinReq
  | [] => (sys, [])
  | r :: rs =>
    let p := resumeFailOne sys c r
    let q := resumeFailAll p.1 c rs
    (q.1, p.2 :: q.2)

/-- Computation `c` rejects: the `.finally` removes the in-flight entry,
then each waiter resumes in attachment order. -/
def settleFail (c : Nat) (w : FinWorld) : FinWorld :=
  match w.sys.comps.get? c with
  | some cr =>
    if cr.status = .running then
      let sys0 : FinSys :=
        { w.sys with
            inflight := delKV w.sys.inflight cr.key,
            comps := w.sys.comps.set c ⟨cr.key, .failed⟩ }
      let p := resumeFailAll sys0 c w.reqs
      { sys := p.1, reqs := p.2 }
    else w
  | none => w

/-- Number of computations currently running for `key`. -/
def runningFor (comps : List CompRec) (key : String) : Nat :=
  (comps.filter (fun cr => cr.key = key && cr.status = .running)).length

/-! ## The `part_007` analytics route variant (C9)

`src/unnamed/part_007` tracks in-flight work in a single module-level
variable `currentRequest` (line 25), not keyed by user. Its `GET` checks
the per-user cache (lines 47-50), then — before doing anything
user-specific — returns `currentRequest` if set (lines 52-54). Otherwise
it reads the user's income and expenses, builds the payload, and registers
the computation (lines 124-149). -/

structure FinDataP7 where
  income : Option ℚ
  expenses : List Expense

/-- A registered `part_007` computation: the user it was started for and
that user's financial data, captured by the closure of lines 124-144. -/
structure P7Comp where
  user : String
  findata : FinDataP7

structure P7Sys where
  cache : List (String × CacheEntry)   -- line 23
  currentRequest : Option Nat          -- line 25
  comps : List P7Comp

inductive P7Phase where
  | entry
  | awaitingShared (c : Nat)           -- line 53
  | awaitingOwn (c : Nat)              -- line 149
  | respondedCache (d : AnalyticsData) -- line 49
  | respondedOk (d : AnalyticsData)

structure P7Req where
  user : String
  phase : P7Phase

structure P7World where
  sys : P7Sys
  reqs : List P7Req

/-- The payload built at lines 130-139 from the data of the user whose
entry started the computation, with `ai` the parsed Gemini response. -/
def mkP7Data (fd : FinDataP7) (ai : JsonVal) : AnalyticsData :=
  ⟨fd.income.getD 0, totalOf fd.expenses, expensesByCategory fd.expenses,
   ai, fd.income.isSome⟩

/-- Miss continuation of the `part_007` GET: attach to the module-level
`currentRequest` if set (lines 52-54) — before any per-user read — else
read this user's data (`db`) and register a computation over it. -/
def p7Miss (db : String → FinDataP7) (sys : P7Sys) (r : P7Req) : P7Sys × P7Req :=
  match sys.currentRequest with
  | some c => (sys, { r with phase := .awaitingShared c })
  | none =>
    let c := sys.comps.length
    ({ sys with
        comps := sys.comps ++ [⟨r.user, db r.user⟩],
        currentRequest := some c },
     { r with phase := .awaitingOwn c })

/-- One `part_007` GET entry (lines 43-149), run as one step of the
cooperative schedule. -/
def p7Entry (now : Nat) (db : String → FinDataP7) (sys : P7Sys) (r : P7Req) :
    P7Sys × P7Req :=
  match r.phase with
  | .entry =>
    match lookupKV sys.cache (String.append "analytics-" r.user) with
    | some e =>
      if finFresh e now then (sys, { r with phase := .respondedCache e.data })
      else p7Miss db sys r
    | none => p7Miss db sys r
  | _ => (sys, r)

def p7EntryAll (now : Nat) (db : String → FinDataP7) (sys : P7Sys) :
    List P7Req → P7Sys × List P7Req
  | [] => (sys, [])
  | r :: rs =>
    let p := p7Entry now db sys r
    let q := p7EntryAll now db p.1 rs
    (q.1, p.2 :: q.2)

/-- Computation `c` fulfills: lines 125-147 — cache the payload under the
initiating user's key, reset `currentRequest`, and hand the payload to
every waiter (line 53 waiters included). -/
def p7SettleSuccess (now : Nat) (ai : JsonVal) (c : Nat) (w : P7World) : P7World :=
  match w.sys.comps.get? c with
  | some comp =>
    let d := mkP7Data comp.findata ai
    { sys :=
        { cache := setKV w.sys.cache (String.append "analytics-" comp.user) ⟨d, now⟩,
          currentRequest := none,
          comps := w.sys.comps },
      reqs := w.reqs.map (fun r =>
        match r.phase with
        | .awaitingShared c' => if c' = c then { r with phase := .respondedOk d } else r
        | .awaitingOwn c' => if c' = c then { r with phase := .respondedOk d } else r
        | _ => r) }
  | none => w

/-! ## Retry controller lemmas -/

/-- Delays of a run in which every attempt fails with a retryable error:
one backoff delay per non-final attempt, starting at 0-based `attempt`. -/
def expectedDelays (baseDelay factor : ℚ) (jitter : Bool) (rands : Nat → ℚ)
    (attempt : Nat) : Nat → List ℚ
  | 0 => []
  | n + 1 =>
    computeDelay baseDelay factor attempt jitter (rands attempt) ::
      expectedDelays baseDelay factor jitter rands (attempt + 1) n

theorem retryGo_allFail {α : Type} (op : Nat → Except JsErr α) (errs : Nat → JsErr)
    (rands : Nat → ℚ) (baseDelay factor : ℚ) (jitter : Bool)
    (hop : ∀ i, op i = .error (errs i))
    (hretry : ∀ i, isNonRetryable (errs i) = false) :
    ∀ remaining attempt lastE,
      retryGo op rands baseDelay factor jitter attempt (remaining + 1) lastE =
        ⟨.error (some (errs (attempt + remaining))), remaining + 1,
         expectedDelays baseDelay factor jitter rands attempt remaining⟩ := by
  intro remaining
  induction remaining with
  | zero =>
    intro attempt lastE
    simp [retryGo, hop attempt, hretry attempt, expectedDelays]
  | succ n ih =>
    intro attempt lastE
    have harith : attempt + 1 + n = attempt + (n + 1) := by omega
    rw [retryGo]
    simp only [hop attempt, hretry attempt, Bool.false_eq_true, if_false,
      Nat.zero_lt_succ, if_true, ih (attempt + 1) (some (errs attempt)),
      expectedDelays, harith]

theorem retryGo_invocations_pos {α : Type} (op : Nat → Except JsErr α)
    (rands : Nat → ℚ) (baseDelay factor : ℚ) (jitter : Bool)
    (attempt remaining : Nat) (lastE : Option JsErr) :
    1 ≤ (retryGo op rands baseDelay factor jitter attempt (remaining + 1) lastE).invocations := by
  rw [retryGo]
  cases h : op attempt with
  | ok v => simp
  | error e =>
    by_cases hr : isNonRetryable e <;>
      simp only [hr, if_true, if_false, Bool.false_eq_true, ite_false, ite_true] <;>
      by_cases hm : 0 < remaining <;> simp [hm]

theorem expectedDelays_get (baseDelay factor : ℚ) (jitter : Bool) (rands : Nat → ℚ) :
    ∀ (m attempt i : Nat), i < m →
      (expectedDelays baseDelay factor jitter rands attempt m).get? i
        = some (computeDelay baseDelay factor (attempt + i) jitter (rands (attempt + i))) := by
  intro m
  induction m with
  | zero => intro attempt i h; omega
  | succ n ih =>
    intro attempt i h
    cases i with
    | zero => simp [expectedDelays]
    | succ j =>
      have harith : attempt + 1 + j = attempt + (j + 1) := by omega
      have := ih (attempt + 1) j (by omega)
      rw [harith] at this
      simpa [expectedDelays] using this

/-- C2: an operation failing with a retryable error on every attempt is
invoked exactly `maxRetries` times (the `maxAttempts` of the spec), after
which the error from the last attempt is raised to the caller. -/
theorem c2_retry_exhausts_attempts {α : Type} (op : Nat → Except JsErr α)
    (errs : Nat → JsErr) (rands : Nat → ℚ) (maxRetries : Nat)
    (baseDelay factor : ℚ) (jitter : Bool)
    (hop : ∀ i, op i = .error (errs i))
    (hretry : ∀ i, isNonRetryable (errs i) = false)
    (hpos : 1 ≤ maxRetries) :
    (retryWithExponentialBackoff op rands maxRetries baseDelay factor jitter).invocations
        = maxRetries ∧
    (retryWithExponentialBackoff op rands maxRetries baseDelay factor jitter).result
        = .error (some (errs (maxRetries - 1))) := by
  obtain ⟨m, rfl⟩ : ∃ m, maxRetries = m + 1 :=
    ⟨maxRetries - 1, (Nat.succ_pred_eq_of_pos hpos).symm⟩
  rw [retryWithExponentialBackoff,
    retryGo_allFail op errs rands baseDelay factor jitter hop hretry m 0 none]
  simp

theorem c2_retry_exhausts_attempts_witness :
    (retryWithExponentialBackoff
        (fun _ => (.error ⟨none, "network error"⟩ : Except JsErr JsonVal))
        (fun _ => 0) 3 1000 2 false).invocations = 3 ∧
    (retryWithExponentialBackoff
        (fun _ => (.error ⟨none, "network error"⟩ : Except JsErr JsonVal))
        (fun _ => 0) 3 1000 2 false).result
      = .error (some ⟨none, "network error"⟩) :=
  c2_retry_exhausts_attempts _ (fun _ => ⟨none, "network error"⟩) _ 3 1000 2 false
    (fun _ => rfl) (fun _ => rfl) (by omega)

/-- C3: an operation whose first failure carries a status in [400,500)
other than 408 and 429 is invoked exactly once and its error propagates
immediately; an operation whose first failure is any other error (no
usable status: network/parse failures, or 5xx/429/408) is invoked again
when attempts remain. -/
theorem c3_permanent_error_single_attempt {α : Type} (op : Nat → Except JsErr α)
    (e : JsErr) (s : Nat) (rands : Nat → ℚ) (maxRetries : Nat)
    (baseDelay factor : ℚ) (jitter : Bool)
    (hop : op 0 = .error e) (hs : e.statusCode = some s)
    (h400 : 400 ≤ s) (h500 : s < 500) (h408 : s ≠ 408) (h429 : s ≠ 429)
    (hpos : 1 ≤ maxRetries) :
    ((retryWithExponentialBackoff op rands maxRetries baseDelay factor jitter).invocations = 1 ∧
     (retryWithExponentialBackoff op rands maxRetries baseDelay factor jitter).result
        = .error (some e)) ∧
    (∀ (op2 : Nat → Except JsErr α) (e2 : JsErr), op2 0 = .error e2 →
      isNonRetryable e2 = false → 2 ≤ maxRetries →
      2 ≤ (retryWithExponentialBackoff op2 rands maxRetries baseDelay factor jitter).invocations) := by
  have hnr : isNonRetryable e = true := by
    simp only [isNonRetryable, hs, Bool.and_eq_true, decide_eq_true_eq]
    omega
  constructor
  · obtain ⟨m, rfl⟩ : ∃ m, maxRetries = m + 1 :=
      ⟨maxRetries - 1, (Nat.succ_pred_eq_of_pos hpos).symm⟩
    rw [retryWithExponentialBackoff, retryGo]
    simp [hop, hnr]
  · intro op2 e2 hop2 hr2 h2
    obtain ⟨m, rfl⟩ : ∃ m, maxRetries = m + 2 := ⟨maxRetries - 2, by omega⟩
    have hpos1 := retryGo_invocations_pos op2 rands baseDelay factor jitter 1 m (some e2)
    have hstep : (retryWithExponentialBackoff op2 rands (m + 2) baseDelay factor jitter).invocations
        = (retryGo op2 rands baseDelay factor jitter 1 (m + 1) (some e2)).invocations + 1 := by
      rw [retryWithExponentialBackoff]
      show (retryGo op2 rands baseDelay factor jitter 0 (m + 1 + 1) none).invocations = _
      rw [retryGo]
      simp [hop2, hr2, apply_ite RetryTrace.invocations]
    omega

theorem c3_permanent_error_single_attempt_witness :
    ((retryWithExponentialBackoff
        (fun _ => (.error ⟨some 403, "Forbidden"⟩ : Except JsErr JsonVal))
        (fun _ => 0) 3 1000 2 true).invocations = 1 ∧
     (retryWithExponentialBackoff
        (fun _ => (.error ⟨some 403, "Forbidden"⟩ : Except JsErr JsonVal))
        (fun _ => 0) 3 1000 2 true).result = .error (some ⟨some 403, "Forbidden"⟩)) ∧
    2 ≤ (retryWithExponentialBackoff
        (fun _ => (.error ⟨none, "parse failure"⟩ : Except JsErr JsonVal))
        (fun _ => 0) 3 1000 2 true).invocations := by
  have h := c3_permanent_error_single_attempt
    (fun _ => (.error ⟨some 403, "Forbidden"⟩ : Except JsErr JsonVal))
    ⟨some 403, "Forbidden"⟩ 403 (fun _ => 0) 3 1000 2 true rfl rfl
    (by omega) (by omega) (by omega) (by omega) (by omega)
  exact ⟨h.1, h.2 (fun _ => .error ⟨none, "parse failure"⟩) ⟨none, "parse failure"⟩
    rfl rfl (by omega)⟩

/-- C8: in a run whose attempts keep failing retryably, the delay recorded
before attempt `n + 1` (i.e. after 0-based failed attempt `n - 1`) is
`computeDelay` at that attempt; without jitter this equals
`baseDelay * factor ^ (n - 1)`, and with jitter and a uniform draw in
[0,1] it lies within ±15% of that value. -/
theorem c8_backoff_delay {α : Type} (op : Nat → Except JsErr α) (errs : Nat → JsErr)
    (rands : Nat → ℚ) (maxRetries : Nat) (baseDelay factor : ℚ) (jitter : Bool)
    (hop : ∀ i, op i = .error (errs i))
    (hretry : ∀ i, isNonRetryable (errs i) = false)
    (n : Nat) (h1 : 1 ≤ n) (hn : n ≤ maxRetries - 1) :
    (retryWithExponentialBackoff op rands maxRetries baseDelay factor jitter).delays.get? (n - 1)
        = some (computeDelay baseDelay factor (n - 1) jitter (rands (n - 1))) ∧
    (jitter = false →
      computeDelay baseDelay factor (n - 1) false (rands (n - 1))
        = baseDelay * factor ^ (n - 1)) ∧
    (jitter = true → 0 ≤ rands (n - 1) → rands (n - 1) ≤ 1 →
      0 ≤ baseDelay → 0 ≤ factor →
      |computeDelay baseDelay factor (n - 1) true (rands (n - 1))
          - baseDelay * factor ^ (n - 1)|
        ≤ (15 / 100) * (baseDelay * factor ^ (n - 1))) := by
  refine ⟨?_, ?_, ?_⟩
  · obtain ⟨m, rfl⟩ : ∃ m, maxRetries = m + 1 := ⟨maxRetries - 1, by omega⟩
    rw [retryWithExponentialBackoff,
      retryGo_allFail op errs rands baseDelay factor jitter hop hretry m 0 none]
    have := expectedDelays_get baseDelay factor jitter rands m 0 (n - 1) (by omega)
    simpa using this
  · intro hj
    simp [computeDelay]
  · intro hj hr0 hr1 hb hf
    have hd : (0 : ℚ) ≤ baseDelay * factor ^ (n - 1) := by positivity
    have h30 : (0 : ℚ) ≤ baseDelay * factor ^ (n - 1) * (3 / 10) := by positivity
    have hup : rands (n - 1) * (baseDelay * factor ^ (n - 1) * (3 / 10))
        ≤ baseDelay * factor ^ (n - 1) * (3 / 10) :=
      mul_le_of_le_one_left h30 hr1
    have hlo : 0 ≤ rands (n - 1) * (baseDelay * factor ^ (n - 1) * (3 / 10)) :=
      mul_nonneg hr0 h30
    rw [computeDelay]
    simp only [if_true]
    rw [abs_le]
    constructor <;> [linarith; linarith]

theorem c8_backoff_delay_witness :
    (retryWithExponentialBackoff
        (fun _ => (.error ⟨none, "err"⟩ : Except JsErr JsonVal))
        (fun _ => 1) 3 1000 2 true).delays.get? 1
      = some (computeDelay 1000 2 1 true 1) ∧
    |computeDelay 1000 2 1 true 1 - 1000 * 2 ^ 1| ≤ (15 / 100) * (1000 * 2 ^ 1) := by
  have h := c8_backoff_delay (fun _ => (.error ⟨none, "err"⟩ : Except JsErr JsonVal))
    (fun _ => ⟨none, "err"⟩) (fun _ => 1) 3 1000 2 true (fun _ => rfl) (fun _ => rfl)
    2 (by omega) (by omega)
  exact ⟨h.1, h.2.2 rfl (by norm_num) (by norm_num) (by norm_num) (by norm_num)⟩

/-- C5 (counterexample): a negative `monthlyIncome` passes the validation
of line 328 — `!(-5000)` is false and `parseFloat(-5000)` is not NaN — so
an income record with the negative amount is created, although the claim
requires every non-positive value to be rejected with a 400. -/
theorem c5_counterexample :
    financialsIncomePost (some (-5000)) = .created (-5000) ∧
    financialsIncomePost (some (-5000)) ≠ .badRequest := by
  have h : financialsIncomePost (some (-5000)) = .created (-5000) := by
    norm_num [financialsIncomePost]
  exact ⟨h, by rw [h]; exact fun hc => IncomePostResult.noConfusion hc⟩

/-- C5 (amended): for request bodies whose `monthlyIncome` is a JSON
number or absent, the financials POST rejects with a 400 exactly when the
field is absent or equal to zero; every non-zero value — negative values
included — passes validation and an income record with that amount is
created. -/
theorem c5_income_validation_amended (mi : Option ℚ) :
    (financialsIncomePost mi = .badRequest ↔ mi = none ∨ mi = some 0) ∧
    (∀ x : ℚ, x ≠ 0 → financialsIncomePost (some x) = .created x) := by
  constructor
  · constructor
    · intro h
      match mi with
      | none => exact Or.inl rfl
      | some x =>
        by_cases hx : x = 0
        · exact Or.inr (by rw [hx])
        · simp [financialsIncomePost, hx] at h
    · rintro (rfl | rfl) <;> simp [financialsIncomePost]
  · intro x hx
    simp [financialsIncomePost, hx]

theorem c5_income_validation_amended_witness :
    financialsIncomePost none = .badRequest ∧
    financialsIncomePost (some (-1)) = .created (-1) :=
  ⟨(c5_income_validation_amended none).1.mpr (Or.inl rfl),
   (c5_income_validation_amended (some (-1))).2 (-1) (by norm_num)⟩

/-- C6 (counterexample): the financials attempt accepts the empty JSON
object — a parseable response with none of the required fields — and
`generateAnalyticsData` caches it as the successful `aiInsights`, although
it fails the required-shape contract; no shape validation happens on this
endpoint. -/
theorem c6_counterexample :
    financialsProcessResponse "x" (some (.jobj [])) = .ok (.jobj []) ∧
    hasRequiredAnalyticsShape (.jobj []) = false ∧
    (generateAnalyticsData (some 1000) [] (.ok (.jobj [])) 0 [] "analytics-u").1.aiInsights
      = .jobj [] ∧
    lookupKV (generateAnalyticsData (some 1000) [] (.ok (.jobj [])) 0 [] "analytics-u").2
        "analytics-u"
      = some ⟨(generateAnalyticsData (some 1000) [] (.ok (.jobj [])) 0 [] "analytics-u").1, 0⟩ :=
  ⟨rfl, rfl, rfl, rfl⟩

/-- C6 (amended): the goal endpoint validates its response against the
required shape before accepting it (a shape failure is an ordinary
attempt failure, handled by the same attempt counter as a call failure);
the financials endpoint accepts any parseable value with no shape check;
parse failures carry no status code, so the financials retry wrapper
retries them like call failures — five attempts in its configuration. -/
theorem c6_validation_amended :
    (∀ v : JsonVal, goalProcessResponse (some v) = .ok v ↔ goalValidateShape v = true) ∧
    (∀ (s : String) (v : JsonVal), ¬s = "" →
      financialsProcessResponse s (some v) = .ok v) ∧
    (retryWithExponentialBackoff
        (fun _ => (financialsProcessResponse "x" none : Except JsErr JsonVal))
        (fun _ => 0) 5 1000 2 true).invocations = 5 := by
  refine ⟨?_, ?_, ?_⟩
  · intro v
    constructor
    · intro h
      by_cases hv : goalValidateShape v = true
      · exact hv
      · simp [goalProcessResponse, hv] at h
    · intro hv
      simp [goalProcessResponse, hv]
  · intro s v hs
    simp [financialsProcessResponse, hs]
  · rfl

theorem c6_validation_amended_witness :
    goalProcessResponse (some (.jobj [("savingsPlan", .jstr "save"),
        ("recommendations", .jarr []), ("tips", .jarr [])]))
      = .ok (.jobj [("savingsPlan", .jstr "save"),
        ("recommendations", .jarr []), ("tips", .jarr [])]) ∧
    financialsProcessResponse "x" (some (.jobj [])) = .ok (.jobj []) :=
  ⟨(c6_validation_amended.1 _).mpr rfl,
   c6_validation_amended.2.1 "x" (.jobj []) (by decide)⟩

/-- Concrete payload used by witnesses. -/
def sampleData : AnalyticsData :=
  ⟨1000, 0, [], .jnull, true⟩

/-- C7: when the fresh computation of an analytics GET fails (including by
the 60 s race timeout), a cache entry for the key — even an expired one —
is returned as the payload annotated with the `_warning` field
(`degraded`), and the 500 error is returned only when no cache entry
exists at all. -/
theorem c7_stale_cache_fallback (cache : List (String × CacheEntry)) (key : String)
    (now : Nat) (err : Option JsErr) :
    (∀ e, lookupKV cache key = some e → finFresh e now = false →
      getFinancialsSolo cache key now (.error err) = .degraded e.data) ∧
    (lookupKV cache key = none →
      getFinancialsSolo cache key now (.error err) = .error500) := by
  constructor
  · intro e he hf
    simp [getFinancialsSolo, he, hf]
  · intro h
    simp [getFinancialsSolo, h]

theorem c7_stale_cache_fallback_witness :
    getFinancialsSolo [("analytics-u", ⟨sampleData, 0⟩)] "analytics-u"
        CACHE_EXPIRATION_MS (.error none) = .degraded sampleData ∧
    getFinancialsSolo [] "analytics-u" 0 (.error none) = .error500 :=
  ⟨(c7_stale_cache_fallback [("analytics-u", ⟨sampleData, 0⟩)] "analytics-u"
      CACHE_EXPIRATION_MS none).1 ⟨sampleData, 0⟩ rfl (by decide),
   (c7_stale_cache_fallback [] "analytics-u" 0 none).2 rfl⟩

/-- C10: when the AI retry pipeline fails, `generateAnalyticsData` still
completes: the payload carries the heuristic fallback insights (50/30/20
budget, generic recommendations), it is cached under the user's key with
the current timestamp, and any GET within the expiration window serves it
as a fresh cache hit, independent of (hence without running) any new
computation. -/
theorem c10_ai_fallback_cached (income : Option ℚ) (expenses : List Expense)
    (err : Option JsErr) (now : Nat) (cache : List (String × CacheEntry)) (key : String) :
    (generateAnalyticsData income expenses (.error err) now cache key).1.aiInsights
        = fallbackInsights (income.getD 0) (totalOf expenses) ∧
    lookupKV (generateAnalyticsData income expenses (.error err) now cache key).2 key
        = some ⟨(generateAnalyticsData income expenses (.error err) now cache key).1, now⟩ ∧
    (∀ now2, now2 - now < CACHE_EXPIRATION_MS → ∀ comp,
      getFinancialsSolo (generateAnalyticsData income expenses (.error err) now cache key).2
          key now2 comp
        = .cacheHit (generateAnalyticsData income expenses (.error err) now cache key).1) := by
  refine ⟨rfl, lookupKV_setKV _ _ _, ?_⟩
  intro now2 h comp
  have hl : lookupKV (generateAnalyticsData income expenses (.error err) now cache key).2 key
      = some ⟨(generateAnalyticsData income expenses (.error err) now cache key).1, now⟩ :=
    lookupKV_setKV _ _ _
  simp [getFinancialsSolo, hl, finFresh, h]

theorem c10_ai_fallback_cached_witness :
    (generateAnalyticsData (some 5000) [] (.error none) 0 [] "analytics-u").1.aiInsights
        = fallbackInsights 5000 0 ∧
    getFinancialsSolo (generateAnalyticsData (some 5000) [] (.error none) 0 [] "analytics-u").2
        "analytics-u" 1 (.error none)
      = .cacheHit (generateAnalyticsData (some 5000) [] (.error none) 0 [] "analytics-u").1 := by
  have h := c10_ai_fallback_cached (some 5000) [] none 0 [] "analytics-u"
  exact ⟨h.1, h.2.2 1 (by decide) (.error none)⟩

/-! ## Coalescing: counterexample runs and the success-path bound -/

/-- A GET request for user key `analytics-u1`, before its entry block. -/
def c1Req : FinReq := ⟨"analytics-u1", none, .entry⟩

/-- Three concurrent requests for one uncached key run their entry blocks,
then the coalesced computation (id 0) rejects. -/
def c1World2 : FinWorld :=
  settleFail 0
    ⟨(entryAll 0 ⟨[], [], []⟩ [c1Req, c1Req, c1Req]).1,
     (entryAll 0 ⟨[], [], []⟩ [c1Req, c1Req, c1Req]).2⟩

/-- C1 (counterexample): three concurrent GET requests for the same
uncached key; the coalesced computation rejects; each of the two attached
callers then starts its own fresh computation (lines 268-285), so three
computations are invoked in total — the claim requires exactly one — and
two of them are running simultaneously afterwards — the claim requires at
most one in-flight computation per key at any instant. -/
theorem c1_counterexample :
    c1World2.sys.comps.length = 3 ∧
    runningFor c1World2.sys.comps "analytics-u1" = 2 :=
  ⟨rfl, rfl⟩

theorem entryAll_attach (now : Nat) (k : String) (c : Nat) (sys : FinSys)
    (hfl : lookupKV sys.inflight k = some c)
    (hstale : ∀ e, lookupKV sys.cache k = some e → finFresh e now = false) :
    ∀ rs : List FinReq, (∀ r ∈ rs, r.key = k ∧ r.phase = .entry) →
      entryAll now sys rs
        = (sys, rs.map (fun r =>
            { r with snapshot := lookupKV sys.cache k, phase := .awaitingShared c })) := by
  intro rs
  induction rs with
  | nil => intro _; simp [entryAll]
  | cons r rest ih =>
    intro hall
    obtain ⟨hk, hp⟩ := hall r (List.mem_cons_self r rest)
    have hone : entryOne now sys r
        = (sys, { r with snapshot := lookupKV sys.cache k, phase := .awaitingShared c }) := by
      cases h : lookupKV sys.cache k with
      | none => simp [entryOne, entryMiss, hp, hk, h, hfl]
      | some e => simp [entryOne, entryMiss, hp, hk, h, hstale e h, hfl]
    simp only [entryAll, hone, ih (fun x hx => hall x (List.mem_cons_of_mem _ hx)),
      List.map_cons]

/-- C1 (amended): for any number of concurrent GET requests for the same
key with no fresh cache entry and nothing initially in flight, the entry
blocks start exactly one computation (every later caller attaches to it,
and the in-flight map holds exactly that entry), and when the computation
settles successfully every caller receives the identical payload. The
claim's bound holds only on this success path: as the counterexample
shows, after a rejection each attached caller starts its own computation. -/
theorem c1_coalescing_success (now now2 : Nat) (k : String)
    (cache0 : List (String × CacheEntry))
    (hstale : ∀ e, lookupKV cache0 k = some e → finFresh e now = false)
    (r0 : FinReq) (rest : List FinReq)
    (hall : ∀ r ∈ r0 :: rest, r.key = k ∧ r.phase = .entry)
    (v : AnalyticsData)
    (p : FinSys × List FinReq)
    (hp : p = entryAll now ⟨cache0, [], []⟩ (r0 :: rest))
    (w2 : FinWorld) (hw2 : w2 = settleSuccess now2 v 0 ⟨p.1, p.2⟩) :
    p.1.comps.length = 1 ∧
    lookupKV p.1.inflight k = some 0 ∧
    w2.sys.comps.length = 1 ∧
    ∀ r ∈ w2.reqs, r.phase = .respondedOk v := by
  subst hp hw2
  obtain ⟨h0k, h0p⟩ := hall r0 (List.mem_cons_self r0 rest)
  have hone : entryOne now ⟨cache0, [], []⟩ r0
      = (⟨cache0, [(k, 0)], [⟨k, .running⟩]⟩,
         { r0 with snapshot := lookupKV cache0 k, phase := .awaitingOwn 0 }) := by
    cases h : lookupKV cache0 k with
    | none => simp [entryOne, entryMiss, h0p, h0k, h, lookupKV, setKV]
    | some e => simp [entryOne, entryMiss, h0p, h0k, h, hstale e h, lookupKV, setKV]
  have hrest := entryAll_attach now k 0 ⟨cache0, [(k, 0)], [⟨k, .running⟩]⟩
    (by simp [lookupKV]) hstale rest
    (fun x hx => hall x (List.mem_cons_of_mem _ hx))
  simp only [entryAll, hone, hrest]
  refine ⟨rfl, by simp [lookupKV], ?_, ?_⟩
  · simp [settleSuccess]
  · simp only [settleSuccess]
    intro r hr
    simp only [List.get?_cons_zero, Option.some.injEq, reduceIte,
      List.map_cons, List.map_map, List.mem_cons, List.mem_map,
      Function.comp] at hr
    rcases hr with rfl | ⟨r', hr', rfl⟩
    · simp [resumeOk]
    · simp [resumeOk]

theorem c1_coalescing_success_witness :
    (entryAll 0 ⟨[], [], []⟩ [c1Req, c1Req]).1.comps.length = 1 ∧
    lookupKV (entryAll 0 ⟨[], [], []⟩ [c1Req, c1Req]).1.inflight "analytics-u1" = some 0 ∧
    (settleSuccess 1 sampleData 0
        ⟨(entryAll 0 ⟨[], [], []⟩ [c1Req, c1Req]).1,
         (entryAll 0 ⟨[], [], []⟩ [c1Req, c1Req]).2⟩).sys.comps.length = 1 := by
  have h := c1_coalescing_success 0 1 "analytics-u1" []
    (fun e he => by simp [lookupKV] at he)
    c1Req [c1Req]
    (fun r hr => by
      simp only [List.mem_cons, List.mem_singleton, List.not_mem_nil, or_false] at hr
      rcases hr with rfl | rfl <;> exact ⟨rfl, rfl⟩)
    sampleData
    (entryAll 0 ⟨[], [], []⟩ [c1Req, c1Req]) rfl
    (settleSuccess 1 sampleData 0
        ⟨(entryAll 0 ⟨[], [], []⟩ [c1Req, c1Req]).1,
         (entryAll 0 ⟨[], [], []⟩ [c1Req, c1Req]).2⟩) rfl
  exact ⟨h.1, h.2.1, h.2.2.1⟩

/-- A GET request for user key `analytics-u2`, before its entry block. -/
def c4Req : FinReq := ⟨"analytics-u2", none, .entry⟩

/-- Two concurrent requests: the first initiates computation 0, the second
attaches; then computation 0 rejects. -/
def c4World2 : FinWorld :=
  settleFail 0
    ⟨(entryAll 0 ⟨[], [], []⟩ [c4Req, c4Req]).1,
     (entryAll 0 ⟨[], [], []⟩ [c4Req, c4Req]).2⟩

/-- C4 (counterexample): after the shared future rejects, the caller that
merely attached is awaiting a brand-new computation (id 1) that it
initiated itself — a second computation exists and is running, directly
contradicting the claim that an attached caller does not automatically
initiate a new computation. -/
theorem c4_counterexample :
    (c4World2.reqs.get? 1).map FinReq.phase = some (.awaitingOwn 1) ∧
    c4World2.sys.comps.length = 2 ∧
    runningFor c4World2.sys.comps "analytics-u2" = 1 :=
  ⟨rfl, rfl, rfl⟩

/-- C4 (amended): when the shared future rejects, a caller that merely
attached does itself initiate a new computation automatically: its failure
continuation (lines 268-272 followed by 276-285) removes the in-flight
entry, starts a fresh computation — one more than existed — and registers
it under the key; the orchestrator's fall-back-or-propagate decision
(line 290 onward) applies only to the initiating caller. -/
theorem c4_attached_caller_respawns (sys : FinSys) (c : Nat) (r : FinReq)
    (h : r.phase = .awaitingShared c) :
    (resumeFailOne sys c r).2.phase = .awaitingOwn sys.comps.length ∧
    (resumeFailOne sys c r).1.comps.length = sys.comps.length + 1 ∧
    lookupKV (resumeFailOne sys c r).1.inflight r.key = some sys.comps.length := by
  simp [resumeFailOne, h, lookupKV_setKV]

theorem c4_attached_caller_respawns_witness :
    (resumeFailOne ⟨[], [], [⟨"analytics-u2", .failed⟩]⟩ 0
        ⟨"analytics-u2", none, .awaitingShared 0⟩).2.phase = .awaitingOwn 1 ∧
    (resumeFailOne ⟨[], [], [⟨"analytics-u2", .failed⟩]⟩ 0
        ⟨"analytics-u2", none, .awaitingShared 0⟩).1.comps.length = 2 := by
  have h := c4_attached_caller_respawns ⟨[], [], [⟨"analytics-u2", .failed⟩]⟩ 0
    ⟨"analytics-u2", none, .awaitingShared 0⟩ rfl
  exact ⟨h.1, h.2.1⟩

/-- C9: in the `part_007` variant the in-flight tracker is the single
module-level `currentRequest`, not keyed by user: while user a's
computation is in flight, user b's GET (uncached for b's own key) attaches
to it and receives the payload computed from a's income and expenses —
distinct from b's own whenever their incomes differ. -/
theorem c9_global_inflight_leak (db : String → FinDataP7) (x y : ℚ) (ai : JsonVal)
    (now : Nat)
    (ha : (db "a").income = some x) (hb : (db "b").income = some y) (hxy : x ≠ y) :
    ((p7SettleSuccess now ai 0
        ⟨(p7EntryAll 0 db ⟨[], none, []⟩ [⟨"a", .entry⟩, ⟨"b", .entry⟩]).1,
         (p7EntryAll 0 db ⟨[], none, []⟩ [⟨"a", .entry⟩, ⟨"b", .entry⟩]).2⟩).reqs.get? 1).map
        P7Req.phase
      = some (.respondedOk (mkP7Data (db "a") ai)) ∧
    mkP7Data (db "a") ai ≠ mkP7Data (db "b") ai := by
  constructor
  · rfl
  · intro h
    have hinc := congrArg AnalyticsData.currentIncome h
    simp [mkP7Data, ha, hb] at hinc
    exact hxy hinc

/-- Concrete two-user data set for the C9 witness: distinct incomes. -/
def c9db : String → FinDataP7 :=
  fun u => if u = "a" then ⟨some 1000, []⟩ else ⟨some 2000, []⟩

theorem c9_global_inflight_leak_witness :
    ((p7SettleSuccess 5 .jnull 0
        ⟨(p7EntryAll 0 c9db ⟨[], none, []⟩ [⟨"a", .entry⟩, ⟨"b", .entry⟩]).1,
         (p7EntryAll 0 c9db ⟨[], none, []⟩ [⟨"a", .entry⟩, ⟨"b", .entry⟩]).2⟩).reqs.get? 1).map
        P7Req.phase
      = some (.respondedOk (mkP7Data (c9db "a") .jnull)) ∧
    mkP7Data (c9db "a") .jnull ≠ mkP7Data (c9db "b") .jnull :=
  c9_global_inflight_leak c9db 1000 2000 .jnull 5 rfl rfl (by norm_num)
